import Mathlib

/-!
Verification of the PFAC multi-pattern matcher (`src/util-mpm-pfac.c`).

This file shallow-embeds the core of the matcher:
  * pattern registration and deduplication (`SCPFACAddPattern`),
  * goto-trie construction (`SCPFACDetermineLevel1Gap`, `SCPFACEnter`,
    `SCPFACCreateGotoTable`),
  * the flat transition ("delta") table (`SCPFACCreateDeltaTable`),
  * output-presence bit packing
    (`SCPFACClubOutputStatePresenceWithDeltaTable`),
  * the verify-bit stamping (`SCPFACInsertCaseSensitiveEntriesForPatterns`),
  * the scan loop (`SCPFACSearch`).

Modelling conventions:
  * bytes and machine integers are `Nat` (with explicit masks where the
    C code masks); the goto table stores `Int` so the `SC_PFAC_FAIL = -1`
    sentinel is kept as in the source;
  * C arrays indexed by state/byte become total functions `Nat → _`
    updated pointwise; cells the C code never writes keep their
    `memset(0)` / initial values;
  * the `pmq->pattern_id_bitarray` byte array with bit packing
    (`pid / 8`, `1 << (pid % 8)`) is abstracted to a function
    `Nat → Bool` indexed by pid (the packing is memory layout only);
  * out-of-range buffer reads (possible in the source when the
    verification window `buf + i - patlen + 1` underruns the buffer,
    which is undefined behaviour in C) return the junk byte 0; every
    concrete run evaluated in this file keeps all reads in range;
  * `exit(EXIT_FAILURE)` paths (allocation failure, BFS queue overflow)
    terminate the process in C, so no compiled context exists in those
    cases; they are not modelled.  The BFS work queue is modelled as its
    live segment `store[bot..top)` (append with linear-scan dedup at
    enqueue, pop at dequeue), which is exact as long as fewer than
    65536 states are ever enqueued — beyond that the C code aborts.
-/

set_option maxRecDepth 4000

/-! ## Constants and helpers missing from `src/`

`u8_tolower` (suricata-common.h), `memcpy_tolower` (util-memcpy.h) and
`SCMemcmp` (util-memcmp.h) are declared outside the single source file.
They are modelled from the spec. -/

/-- Modelled from the spec: `u8_tolower` (suricata-common.h is not under
`src/`).  "all comparisons and the fold table are ASCII-only (bytes
0x41–0x5A → 0x61–0x7A); bytes ≥ 0x80 pass through unchanged." -/
def u8_tolower (b : Nat) : Nat :=
  if 0x41 ≤ b ∧ b ≤ 0x5A then b + 0x20 else b

/-- Modelled from the spec: `memcpy_tolower` (util-memcpy.h is not under
`src/`): copies a byte string while ASCII-lowercasing each byte. -/
def memcpy_tolower (src : List Nat) : List Nat :=
  src.map u8_tolower

/-- Modelled from the spec: `SCMemcmp` (util-memcmp.h is not under
`src/`): byte-for-byte comparison, `0` on equality, nonzero otherwise. -/
def SCMemcmp (a b : List Nat) : Nat :=
  if a = b then 0 else 1

/-- Source `#define INIT_HASH_SIZE 65536` -/
def INIT_HASH_SIZE : Nat := 65536

/-- Source `#define SC_PFAC_FAIL (-1)` -/
def SC_PFAC_FAIL : Int := -1

/-! ## Pattern store (`SCPFACPattern`, `SCPFACAddPattern`) -/

/-- Source `SCPFACPattern` (fields used by the core; `offset`, `depth`, `sid`
are ignored by `SCPFACAddPattern` and dropped).  `flags` is only ever
tested against `MPM_PATTERN_FLAG_NOCASE`, so it is modelled as the
boolean `flags_nocase`. -/
structure SCPFACPattern where
  id : Nat
  len : Nat
  original_pat : List Nat
  ci : List Nat
  cs : List Nat
  flags_nocase : Bool
  deriving DecidableEq

/-- The mpm context state mutated by registration: the pattern store
(the `init_hash` chains, kept in insertion order) and the running
statistics `pattern_cnt` is `patterns.length`. -/
structure MpmStore where
  patterns : List SCPFACPattern
  minlen : Nat
  maxlen : Nat
  max_pat_id : Nat
  deriving DecidableEq

def initMpmStore : MpmStore := ⟨[], 0, 0, 0⟩

/-- Source `SCPFACInitHashRaw`: `hash = patlen * pat[0]; if (patlen > 1) hash
+= pat[1]; return hash % INIT_HASH_SIZE;` -/
def SCPFACInitHashRaw (pat : List Nat) (patlen : Nat) : Nat :=
  (patlen * pat.headD 0 + (if patlen > 1 then pat.getD 1 0 else 0)) % INIT_HASH_SIZE

/-- Source `SCPFACInitHash`: same hash computed from a stored pattern's
`original_pat` and `len`. -/
def SCPFACInitHash (p : SCPFACPattern) : Nat :=
  SCPFACInitHashRaw p.original_pat p.len

/-- Source `SCPFACInitHashLookup`: walks the chain of the bucket determined by
the *incoming* bytes' hash, comparing stored `id`s only. -/
def SCPFACInitHashLookup (st : MpmStore) (pat : List Nat) (patlen : Nat)
    (pid : Nat) : Option SCPFACPattern :=
  st.patterns.find? (fun t => SCPFACInitHash t = SCPFACInitHashRaw pat patlen ∧ t.id = pid)

/-- Source `SCPFACAddPattern`.  The length-0 check comes first (warn and
return 0); then the duplicate lookup; otherwise the pattern is built
(`original_pat` copy, `ci` lowercased copy, `cs` aliasing `ci` for
NOCASE or already-lowercase patterns) and the running stats updated.
`patlen` is the length of `pat`. -/
def SCPFACAddPattern (st : MpmStore) (pat : List Nat) (pid : Nat)
    (nocase : Bool) : Int × MpmStore :=
  if pat.length = 0 then (0, st)
  else
    match SCPFACInitHashLookup st pat pat.length pid with
    | some _ => (0, st)
    | none =>
      let ci := memcpy_tolower pat
      let p : SCPFACPattern :=
        { id := pid, len := pat.length, original_pat := pat, ci := ci
          cs := if nocase then ci else if ci = pat then ci else pat
          flags_nocase := nocase }
      (0, { patterns := st.patterns ++ [p]
            maxlen := if st.maxlen < pat.length then pat.length else st.maxlen
            minlen := if st.minlen = 0 then pat.length
                      else if st.minlen > pat.length then pat.length else st.minlen
            max_pat_id := if pid > st.max_pat_id then pid else st.max_pat_id })

/-- Source `SCPFACAddPatternCI`: `flags |= MPM_PATTERN_FLAG_NOCASE`. -/
def SCPFACAddPatternCI (st : MpmStore) (pat : List Nat) (pid : Nat) : Int × MpmStore :=
  SCPFACAddPattern st pat pid true

/-- Source `SCPFACAddPatternCS`: flags passed through unchanged (callers pass 0). -/
def SCPFACAddPatternCS (st : MpmStore) (pat : List Nat) (pid : Nat) : Int × MpmStore :=
  SCPFACAddPattern st pat pid false

/-- A registration request: pattern bytes, pattern id, NOCASE flag. -/
structure PatReg where
  pat : List Nat
  pid : Nat
  nocase : Bool

/-- Run a sequence of registrations against an initially empty context. -/
def registerAll (regs : List PatReg) : MpmStore :=
  regs.foldl (fun st r => (SCPFACAddPattern st r.pat r.pid r.nocase).2) initMpmStore

/-! ## The prepare-time pattern array (`ctx->parray`)

`SCPFACPreparePatterns` rebuilds `parray` by walking the hash buckets
`init_hash[0] .. init_hash[INIT_HASH_SIZE-1]` in index order, and each
bucket chain in insertion order.  `SCPFACConstructParrayBuckets` is the
direct translation of that loop.  Because a 65536-step traversal cannot
be reduced by the kernel, the pipeline uses `SCPFACConstructParray`,
which walks only the (sorted, deduplicated) bucket indices that are
actually populated; `SCPFACConstructParray_eq_buckets` proves the two
agree on every store. -/

/-- The chain of bucket `h`: the stored patterns hashing to `h`, in
insertion order (`SCPFACInitHashAdd` appends at the chain tail). -/
def SCPFACBucket (ps : List SCPFACPattern) (h : Nat) : List SCPFACPattern :=
  ps.filter (fun p => SCPFACInitHash p = h)

/-- Direct translation of the `parray` loop: all buckets in index
order. -/
def SCPFACConstructParrayBuckets (ps : List SCPFACPattern) : List SCPFACPattern :=
  (List.range INIT_HASH_SIZE).flatMap (SCPFACBucket ps)

/-- Insert a key into a strictly-ascending duplicate-free list. -/
def hashKeyInsert (x : Nat) : List Nat → List Nat
  | [] => [x]
  | y :: ys => if x < y then x :: y :: ys
               else if x = y then y :: ys
               else y :: hashKeyInsert x ys

/-- Sorted, duplicate-free list of the keys occurring in `l`. -/
def hashKeySort : List Nat → List Nat
  | [] => []
  | x :: xs => hashKeyInsert x (hashKeySort xs)

/-- The populated bucket indices in ascending order, then their chains:
extensionally equal to `SCPFACConstructParrayBuckets`
(`SCPFACConstructParray_eq_buckets`), but reducible by the kernel. -/
def SCPFACConstructParray (ps : List SCPFACPattern) : List SCPFACPattern :=
  (hashKeySort (ps.map SCPFACInitHash)).flatMap (SCPFACBucket ps)

theorem mem_hashKeyInsert (a x : Nat) (l : List Nat) :
    a ∈ hashKeyInsert x l ↔ a = x ∨ a ∈ l := by
  induction l with
  | nil => simp [hashKeyInsert]
  | cons y ys ih =>
    simp only [hashKeyInsert]
    split
    · simp [List.mem_cons]
    · split
      · subst_eqs
        simp only [List.mem_cons]
        tauto
      · simp only [List.mem_cons, ih]
        tauto

theorem sorted_hashKeyInsert (x : Nat) (l : List Nat)
    (h : l.Sorted (· < ·)) : (hashKeyInsert x l).Sorted (· < ·) := by
  induction l with
  | nil => simp [hashKeyInsert]
  | cons y ys ih =>
    simp only [hashKeyInsert]
    rcases Nat.lt_trichotomy x y with hxy | hxy | hxy
    · rw [if_pos hxy]
      refine List.sorted_cons.2 ⟨fun b hb => ?_, h⟩
      rcases List.mem_cons.1 hb with rfl | hb
      · exact hxy
      · exact hxy.trans ((List.sorted_cons.1 h).1 b hb)
    · rw [if_neg (by omega), if_pos hxy]
      exact h
    · rw [if_neg (by omega), if_neg (by omega)]
      have hys := List.sorted_cons.1 h
      refine List.sorted_cons.2 ⟨fun b hb => ?_, ih hys.2⟩
      rcases (mem_hashKeyInsert b x ys).1 hb with rfl | hb
      · exact hxy
      · exact hys.1 b hb

theorem mem_hashKeySort (a : Nat) (l : List Nat) :
    a ∈ hashKeySort l ↔ a ∈ l := by
  induction l with
  | nil => simp [hashKeySort]
  | cons x xs ih => simp [hashKeySort, mem_hashKeyInsert, ih]

theorem sorted_hashKeySort (l : List Nat) : (hashKeySort l).Sorted (· < ·) := by
  induction l with
  | nil => simp [hashKeySort]
  | cons x xs ih => exact sorted_hashKeyInsert x _ ih

/-- Dropping the keys whose bucket is empty does not change a bucket
concatenation. -/
theorem flatMap_filter_ne_nil {α β} [DecidableEq β] (l : List α) (f : α → List β) :
    (l.filter (fun x => f x ≠ [])).flatMap f = l.flatMap f := by
  induction l with
  | nil => rfl
  | cons x xs ih =>
    by_cases hx : f x = []
    · simp only [List.filter_cons, hx, ne_eq, not_true_eq_false, decide_False,
        Bool.false_eq_true, if_false, ih, List.flatMap_cons, List.nil_append]
    · simp only [List.filter_cons, ne_eq, hx, not_false_eq_true, decide_True,
        if_true, List.flatMap_cons, ih]

theorem bucket_ne_nil_iff (ps : List SCPFACPattern) (h : Nat) :
    SCPFACBucket ps h ≠ [] ↔ h ∈ ps.map SCPFACInitHash := by
  simp only [SCPFACBucket, ne_eq, List.filter_eq_nil_iff, List.mem_map]
  constructor
  · intro hne
    push_neg at hne
    obtain ⟨p, hp, hh⟩ := hne
    exact ⟨p, hp, by simpa using hh⟩
  · rintro ⟨p, hp, rfl⟩ hall
    exact absurd (by simp) (hall p hp)

/-- The executable parray equals the literal bucket-index traversal. -/
theorem SCPFACConstructParray_eq_buckets (ps : List SCPFACPattern) :
    SCPFACConstructParray ps = SCPFACConstructParrayBuckets ps := by
  have hs1 : (hashKeySort (ps.map SCPFACInitHash)).Sorted (· < ·) := sorted_hashKeySort _
  have hs2 : ((List.range INIT_HASH_SIZE).filter
      (fun h => SCPFACBucket ps h ≠ [])).Sorted (· < ·) :=
    (List.sorted_lt_range INIT_HASH_SIZE).sublist (List.filter_sublist _)
  have heq : hashKeySort (ps.map SCPFACInitHash)
      = (List.range INIT_HASH_SIZE).filter (fun h => SCPFACBucket ps h ≠ []) := by
    refine List.eq_of_perm_of_sorted ?_ hs1 hs2
    refine (List.perm_ext_iff_of_nodup hs1.nodup hs2.nodup).2 fun a => ?_
    rw [mem_hashKeySort, List.mem_filter, List.mem_range]
    have hlt : ∀ b ∈ ps.map SCPFACInitHash, b < INIT_HASH_SIZE := by
      rintro b hb
      obtain ⟨p, _, rfl⟩ := List.mem_map.1 hb
      exact Nat.mod_lt _ (by norm_num [INIT_HASH_SIZE])
    simp only [decide_eq_true_eq, bucket_ne_nil_iff]
    constructor
    · intro ha
      exact ⟨hlt a ha, ha⟩
    · rintro ⟨-, ha⟩
      exact ha
  unfold SCPFACConstructParray SCPFACConstructParrayBuckets
  rw [heq, flatMap_filter_ne_nil]

/-! ## Goto-trie construction -/

/-- The prepare-time scratch state: `ctx->state_count`,
`ctx->goto_table` (`SC_PFAC_FAIL`-initialized rows) and
`ctx->output_table` (zero-initialized rows). -/
structure ACBuild where
  state_count : Nat
  goto_table : Nat → Nat → Int
  output_table : Nat → List Nat

/-- The scratch state before the 0th state is allocated: every goto
cell of a freshly allocated row is set to `SC_PFAC_FAIL` and every
output row is `memset(0)`, so unallocated rows already carry their
post-allocation contents. -/
def initACBuild : ACBuild :=
  { state_count := 0, goto_table := fun _ _ => SC_PFAC_FAIL, output_table := fun _ => [] }

/-- Source `SCPFACInitNewState`: returns `ctx->state_count++`; the new row is
all-FAIL and its output row empty (already true in the model). -/
def SCPFACInitNewState (b : ACBuild) : Nat × ACBuild :=
  (b.state_count, { b with state_count := b.state_count + 1 })

/-- Write one goto cell. -/
def setGoto (b : ACBuild) (s c : Nat) (t : Int) : ACBuild :=
  { b with goto_table := fun s2 c2 => if s2 = s ∧ c2 = c then t else b.goto_table s2 c2 }

/-- Source `SCPFACSetOutputState`: append `pid` to the state's output row
unless already present. -/
def SCPFACSetOutputState (state pid : Nat) (b : ACBuild) : ACBuild :=
  if pid ∈ b.output_table state then b
  else { b with output_table := fun s =>
          if s = state then b.output_table state ++ [pid] else b.output_table s }

/-- First loop of `SCPFACEnter`: walk existing transitions while they
are non-FAIL; returns the state reached and the unconsumed suffix. -/
def SCPFACEnterWalk (b : ACBuild) : Nat → List Nat → Nat × List Nat
  | state, [] => (state, [])
  | state, c :: rest =>
    if b.goto_table state c ≠ SC_PFAC_FAIL then
      SCPFACEnterWalk b (b.goto_table state c).toNat rest
    else (state, c :: rest)

/-- Second loop of `SCPFACEnter`: allocate a fresh state per remaining
byte and wire the transition. -/
def SCPFACEnterAdd (b : ACBuild) : Nat → List Nat → ACBuild × Nat
  | state, [] => (b, state)
  | state, c :: rest =>
    let (newstate, b1) := SCPFACInitNewState b
    SCPFACEnterAdd (setGoto b1 state c (Int.ofNat newstate)) newstate rest

/-- Source `SCPFACEnter`: walk the shared prefix, add the new suffix, record
the pattern id at the terminal state. -/
def SCPFACEnter (pattern : List Nat) (pid : Nat) (b : ACBuild) : ACBuild :=
  let (state, rest) := SCPFACEnterWalk b 0 pattern
  let (b2, terminal) := SCPFACEnterAdd b state rest
  SCPFACSetOutputState terminal pid b2

/-- Source `SCPFACCreateGotoTable`: enter every parray pattern's folded bytes
(`parray[i]->ci`), then replace every remaining FAIL in row 0 with 0
(the root self-loop). -/
def SCPFACCreateGotoTable (parray : List SCPFACPattern) (b : ACBuild) : ACBuild :=
  let b1 := parray.foldl (fun b p => SCPFACEnter p.ci p.id b) b
  { b1 with goto_table := fun s c =>
      if s = 0 ∧ c < 256 ∧ b1.goto_table 0 c = SC_PFAC_FAIL then 0
      else b1.goto_table s c }

/-- Source `SCPFACDetermineLevel1Gap`: allocate one direct child of state 0
per distinct first folded byte, in ascending byte order. -/
def SCPFACDetermineLevel1Gap (parray : List SCPFACPattern) (b : ACBuild) : ACBuild :=
  (List.range 256).foldl
    (fun b u =>
      if parray.any (fun p => p.ci.headD 0 = u) then
        let (newstate, b1) := SCPFACInitNewState b
        setGoto b1 0 u (Int.ofNat newstate)
      else b)
    b

/-! ## Delta table (`SCPFACCreateDeltaTable`)

The failure table is never built (the `SCPFACCreateFailureTable` call
at the end of `SCPFACPrepareStateTable` is commented out), and the
failure-elimination assignment in the delta loop is commented out as
well: a cell whose goto entry is FAIL keeps its `memset(0)` value.
The 16-bit and the 32-bit loop bodies are identical apart from the
cell width, so one definition serves both tables; stored states are
below `state_count`, so the `uint16_t` truncation of the source is the
identity whenever `state_count` is below 2^16 (the only case in which
the 16-bit table is consulted). -/

/-- Source `SCPFACEnqueue`: linear-scan dedup over the pending segment, then
append. -/
def SCPFACEnqueue (q : List Nat) (state : Nat) : List Nat :=
  if state ∈ q then q else q ++ [state]

/-- One dequeued state `r_state`: for each ascii code with a non-FAIL
goto entry, enqueue the destination and copy it into the delta row.
FAIL cells are left untouched (the failure-elimination line is
commented out in the source). -/
def SCPFACDeltaRound (g : Nat → Nat → Int) (r_state : Nat)
    (qd : List Nat × (Nat → Nat → Nat)) : List Nat × (Nat → Nat → Nat) :=
  (List.range 256).foldl
    (fun (qd : List Nat × (Nat → Nat → Nat)) c =>
      let temp_state := g r_state c
      if temp_state ≠ SC_PFAC_FAIL then
        (SCPFACEnqueue qd.1 temp_state.toNat,
         fun s2 c2 => if s2 = r_state ∧ c2 = c then temp_state.toNat else qd.2 s2 c2)
      else qd)
    qd

/-- The BFS loop of `SCPFACCreateDeltaTable`.  `fuel` bounds the number
of dequeues; the queue dedup and the tree shape of the trie bound the
dequeues by `state_count`, and the C code aborts the process before
65536 states can exist. -/
def SCPFACDeltaLoop (g : Nat → Nat → Int) :
    Nat → List Nat → (Nat → Nat → Nat) → (Nat → Nat → Nat)
  | 0, _, d => d
  | _ + 1, [], d => d
  | fuel + 1, r_state :: q, d =>
    let qd := SCPFACDeltaRound g r_state (q, d)
    SCPFACDeltaLoop g fuel qd.1 qd.2

/-- Source `#define STATE_QUEUE_CONTAINER_SIZE 65536` -/
def STATE_QUEUE_CONTAINER_SIZE : Nat := 65536

/-- Source `SCPFACCreateDeltaTable` (one cell-width-independent table): row 0
is copied from goto row 0 (whose FAILs were already replaced by 0),
non-zero destinations are enqueued, then the BFS runs. -/
def SCPFACCreateDeltaTable (g : Nat → Nat → Int) : Nat → Nat → Nat :=
  let d0 : Nat → Nat → Nat := fun s c => if s = 0 ∧ c < 256 then (g 0 c).toNat else 0
  let q0 : List Nat :=
    (List.range 256).foldl
      (fun q c => if (g 0 c).toNat ≠ 0 then SCPFACEnqueue q (g 0 c).toNat else q) []
  SCPFACDeltaLoop g STATE_QUEUE_CONTAINER_SIZE q0 d0

/-- Source `SCPFACClubOutputStatePresenceWithDeltaTable`, for cell mask `mask`
(0x7FFF or 0x00FFFFFF) and presence bit `bit` (1 << 15 or 1 << 24).
The loop reads each cell `(state, code)` with `state < state_count`,
`code < 256`, once, and ORs the presence bit into that same cell, so
the pass is per-cell independent and is modelled pointwise.  (In the
source the row index is `state & mask`, the identity for
`state < state_count` whenever `state_count` fits the mask — the only
case in which the table is consulted.) -/
def SCPFACClubOutputStatePresenceWithDeltaTable (mask bit : Nat)
    (state_count : Nat) (out : Nat → List Nat) (d : Nat → Nat → Nat) :
    Nat → Nat → Nat :=
  fun state c =>
    if state < state_count ∧ c < 256 ∧ out (d state c &&& mask) ≠ [] then
      d state c ||| bit
    else d state c

/-- Source `SCPFACPatternList` (`ctx->pid_pat_list` entries): the
case-sensitive bytes (NULL for NOCASE patterns, modelled as `none`)
and their length. -/
structure SCPFACPatternList where
  cs : Option (List Nat)
  patlen : Nat

/-- The `pid_pat_list` build inside `SCPFACPreparePatterns`: for every
non-NOCASE parray pattern, store its original bytes and length at
index `id`. -/
def SCPFACBuildPidPatList (parray : List SCPFACPattern) : Nat → SCPFACPatternList :=
  parray.foldl
    (fun acc p =>
      if ¬p.flags_nocase then
        fun pid => if pid = p.id then ⟨some p.original_pat, p.len⟩ else acc pid
      else acc)
    (fun _ => ⟨none, 0⟩)

/-- Source `SCPFACInsertCaseSensitiveEntriesForPatterns`: for every output
entry whose pid has a case-sensitive entry, mask the pid to 16 bits and
OR in the verify bit (1 << 16).  Each entry is visited once, so the
double loop is modelled pointwise over the rows. -/
def SCPFACInsertCaseSensitiveEntriesForPatterns
    (ppl : Nat → SCPFACPatternList) (state_count : Nat)
    (out : Nat → List Nat) : Nat → List Nat :=
  fun state =>
    if state < state_count then
      (out state).map (fun pid =>
        if (ppl pid).cs ≠ none then (pid &&& 0x0000FFFF) ||| (1 <<< 16) else pid)
    else out state

/-! ## The compiled context and `SCPFACPreparePatterns` -/

/-- The compiled context.  The source frees `goto_table` at the end of
`SCPFACPrepareStateTable`; it is kept here for specification purposes
(the post-rewrite table, with row-0 FAILs already replaced by 0).  The
source builds `state_table_u16` when `state_count < 32767` and
`state_table_u32` otherwise (or both under
`construct_both_16_and_32_state_tables`); both are defined here
unconditionally, and the scanner picks the one the source would use. -/
structure SCPFACCtx where
  pattern_cnt : Nat
  state_count : Nat
  goto_table : Nat → Nat → Int
  output_table : Nat → List Nat
  pid_pat_list : Nat → SCPFACPatternList
  state_table_u16 : Nat → Nat → Nat
  state_table_u32 : Nat → Nat → Nat
  max_pat_id : Nat

/-- The context before `SCPFACPreparePatterns` does anything: all
fields `memset(0)` (`goto_table` rows are FAIL-initialized on
allocation). -/
def emptySCPFACCtx : SCPFACCtx :=
  { pattern_cnt := 0, state_count := 0
    goto_table := fun _ _ => SC_PFAC_FAIL
    output_table := fun _ => []
    pid_pat_list := fun _ => ⟨none, 0⟩
    state_table_u16 := fun _ _ => 0
    state_table_u32 := fun _ _ => 0
    max_pat_id := 0 }

/-- Source `SCPFACPrepareStateTable` + `SCPFACPreparePatterns`.  If no pattern
was registered the function returns without building anything.
Otherwise: parray from the hash buckets, `pid_pat_list` from the
non-NOCASE patterns, state 0, the level-1 prefilter, the goto table,
the delta table (the failure table is *not* built — its construction is
commented out in the source), the output-presence bits, and the
verify-bit stamping. -/
def SCPFACParrayOf (st : MpmStore) : List SCPFACPattern :=
  SCPFACConstructParray st.patterns

/-- The goto/output scratch state at the end of `SCPFACCreateGotoTable`:
state 0, the level-1 prefilter, then the trie with the row-0 rewrite. -/
def SCPFACBuildOf (st : MpmStore) : ACBuild :=
  SCPFACCreateGotoTable (SCPFACParrayOf st)
    (SCPFACDetermineLevel1Gap (SCPFACParrayOf st) (SCPFACInitNewState initACBuild).2)

/-- The cell-width-independent delta table of the prepared context. -/
def SCPFACDeltaOf (st : MpmStore) : Nat → Nat → Nat :=
  SCPFACCreateDeltaTable (SCPFACBuildOf st).goto_table

def SCPFACPreparePatterns (st : MpmStore) : SCPFACCtx :=
  if st.patterns = [] then emptySCPFACCtx
  else
    { pattern_cnt := st.patterns.length
      state_count := (SCPFACBuildOf st).state_count
      goto_table := (SCPFACBuildOf st).goto_table
      output_table := SCPFACInsertCaseSensitiveEntriesForPatterns
        (SCPFACBuildPidPatList (SCPFACParrayOf st)) (SCPFACBuildOf st).state_count
        (SCPFACBuildOf st).output_table
      pid_pat_list := SCPFACBuildPidPatList (SCPFACParrayOf st)
      state_table_u16 := SCPFACClubOutputStatePresenceWithDeltaTable 0x7FFF 0x8000
        (SCPFACBuildOf st).state_count (SCPFACBuildOf st).output_table (SCPFACDeltaOf st)
      state_table_u32 := SCPFACClubOutputStatePresenceWithDeltaTable 0x00FFFFFF 0x01000000
        (SCPFACBuildOf st).state_count (SCPFACBuildOf st).output_table (SCPFACDeltaOf st)
      max_pat_id := st.max_pat_id }

/-- Register a list of patterns and prepare: the full compile
pipeline. -/
def SCPFACCompile (regs : List PatReg) : SCPFACCtx :=
  SCPFACPreparePatterns (registerAll regs)

/-! ## The scanner (`SCPFACSearch`) -/

/-- Source `PatternMatcherQueue`: the caller-owned sink.  `pattern_id_array`
is the append-only pid list (`pattern_id_array_cnt` is its length);
`pattern_id_bitarray` is the per-pid seen bitset. -/
structure PatternMatcherQueue where
  pattern_id_bitarray : Nat → Bool
  pattern_id_array : List Nat

def emptyPmq : PatternMatcherQueue := ⟨fun _ => false, []⟩

/-- The record step shared by both scanner branches: if the pid's bit
is already set do nothing, otherwise set the bit and append the pid.
Returns the updated sink and whether the pid was newly recorded. -/
def pmqRecord (pmq : PatternMatcherQueue) (pid : Nat) : PatternMatcherQueue × Bool :=
  if pmq.pattern_id_bitarray pid then (pmq, false)
  else ({ pattern_id_bitarray := fun x => if x = pid then true else pmq.pattern_id_bitarray x
          pattern_id_array := pmq.pattern_id_array ++ [pid] }, true)

/-- Read `buf[k]` for a possibly negative index; out-of-range reads
are undefined behaviour in C and return the junk byte 0 here.  Every
concrete run evaluated in this file keeps its reads in range. -/
def bufGetI (buf : List Nat) (k : Int) : Nat :=
  if k < 0 then 0 else buf.getD k.toNat 0

/-- The window `buf + start .. buf + start + len` read by `SCMemcmp`
during case-sensitive verification. -/
def bufWindow (buf : List Nat) (start : Int) (len : Nat) : List Nat :=
  (List.range len).map (fun k => bufGetI buf (start + k))

/-- The outcome of one pid emission in the inner `for (k = 0; ...)`
loop: `none` when case-sensitive verification failed (after which the
loop `break`s), `some true` when the pid was newly recorded,
`some false` when its bit was already set. -/
abbrev PidOutcome := Nat × Option Bool

/-- The 16-bit branch's pid loop (`for (k = 0; k < no_of_entries; k++)`).
An entry with any of bits 16–31 set is looked up in `pid_pat_list` and
the window `buf + i - patlen + 1` is compared against the stored
case-sensitive bytes; on mismatch the loop `break`s (the `goto loop1`
of the upstream code was replaced by `break`), otherwise the masked pid
is recorded.  Entries without the verify bits are recorded as stored. -/
def SCPFACProcessPids (ppl : Nat → SCPFACPatternList) (buf : List Nat) (i : Nat)
    (pmq : PatternMatcherQueue) : List Nat → PatternMatcherQueue × List PidOutcome
  | [] => (pmq, [])
  | pid :: rest =>
    if pid &&& 0xFFFF0000 ≠ 0 then
      let entry := ppl (pid &&& 0x0000FFFF)
      if SCMemcmp (entry.cs.getD []) (bufWindow buf ((i : Int) - entry.patlen + 1) entry.patlen) ≠ 0 then
        (pmq, [(pid, none)])
      else
        let (pmq2, newrec) := pmqRecord pmq (pid &&& 0x0000FFFF)
        let (pmq3, outs) := SCPFACProcessPids ppl buf i pmq2 rest
        (pmq3, (pid, some newrec) :: outs)
    else
      let (pmq2, newrec) := pmqRecord pmq pid
      let (pmq3, outs) := SCPFACProcessPids ppl buf i pmq2 rest
      (pmq3, (pid, some newrec) :: outs)

/-- One match event of a scan: the outer index `i` (pass start), the
inner index `j` at which the match-state was entered, the raw cell
value, and the pid outcomes enumerated there.  The event log is a ghost
field: nothing in the scan reads it, so dropping it yields exactly the
source's computation (the `matches` counter and the sink updates are
verbatim). -/
structure ScanEvent where
  i : Nat
  j : Nat
  cell : Nat
  emitted : List PidOutcome
  deriving DecidableEq

/-- The running scan accumulator: the `matches` counter of the source
(`matches` is a reserved token in Lean, so the field is named
`matchCount`), the sink and the event log. -/
structure ScanAcc where
  matchCount : Nat
  pmq : PatternMatcherQueue
  events : List ScanEvent

/-- The inner loop of the 16-bit branch (`for (j = i; j < buflen; j++)`).
`rem = buf.drop j` drives the recursion; the loop breaks as soon as the
next state is 0 (leaving `state = 0` behind), and on a cell with bit 15
set it bumps `matches` once and enumerates the state's output row.  The
final `state` (raw cell value, presence bit included) is returned: the
source declares `state` outside the outer loop, so it carries over into
the next pass when the inner loop runs off the end of the buffer. -/
def SCPFACSearch16Inner (tab : Nat → Nat → Nat) (out : Nat → List Nat)
    (ppl : Nat → SCPFACPatternList) (buf : List Nat) (i : Nat) :
    List Nat → Nat → Nat → ScanAcc → Nat × ScanAcc
  | [], _, state, acc => (state, acc)
  | b :: rest, j, state, acc =>
    let state2 := tab (state &&& 0x7FFF) (u8_tolower b)
    if state2 = 0 then (0, acc)
    else
      let acc2 :=
        if state2 &&& 0x8000 ≠ 0 then
          let pids := out (state2 &&& 0x7FFF)
          let (pmq2, emitted) := SCPFACProcessPids ppl buf i acc.pmq pids
          { matchCount := acc.matchCount + 1, pmq := pmq2
            events := acc.events ++ [⟨i, j, state2, emitted⟩] }
        else acc
      SCPFACSearch16Inner tab out ppl buf i rest (j + 1) state2 acc2

/-- The 16-bit branch of `SCPFACSearch`: the outer loop over `i`, with
`state` carried from one pass to the next. -/
def SCPFACSearch16 (c : SCPFACCtx) (pmq : PatternMatcherQueue)
    (buf : List Nat) : ScanAcc :=
  let fin := (List.range buf.length).foldl
    (fun (sa : Nat × ScanAcc) i =>
      SCPFACSearch16Inner c.state_table_u16 c.output_table c.pid_pat_list
        buf i (buf.drop i) i sa.1 sa.2)
    (0, ⟨0, pmq, []⟩)
  fin.2

/-- The 32-bit branch's pid loop: identical sink updates, but `matches`
is incremented per surviving pid (the per-pid `matches++` lines are
live in this branch). -/
def SCPFACProcessPids32 (ppl : Nat → SCPFACPatternList) (buf : List Nat) (i : Nat)
    (pmq : PatternMatcherQueue) :
    List Nat → PatternMatcherQueue × Nat × List PidOutcome
  | [] => (pmq, 0, [])
  | pid :: rest =>
    if pid &&& 0xFFFF0000 ≠ 0 then
      let entry := ppl (pid &&& 0x0000FFFF)
      if SCMemcmp (entry.cs.getD []) (bufWindow buf ((i : Int) - entry.patlen + 1) entry.patlen) ≠ 0 then
        (pmq, 0, [(pid, none)])
      else
        let (pmq2, newrec) := pmqRecord pmq (pid &&& 0x0000FFFF)
        let (pmq3, n, outs) := SCPFACProcessPids32 ppl buf i pmq2 rest
        (pmq3, n + 1, (pid, some newrec) :: outs)
    else
      let (pmq2, newrec) := pmqRecord pmq pid
      let (pmq3, n, outs) := SCPFACProcessPids32 ppl buf i pmq2 rest
      (pmq3, n + 1, (pid, some newrec) :: outs)

/-- The inner loop of the 32-bit branch.  Note the source reads
`buf[i]` (not `buf[j]`) on every iteration, never breaks on state 0,
and tests `state & 0xFF000000` (only bit 24 can be set). -/
def SCPFACSearch32Inner (tab : Nat → Nat → Nat) (out : Nat → List Nat)
    (ppl : Nat → SCPFACPatternList) (buf : List Nat) (i : Nat) :
    Nat → Nat → Nat → ScanAcc → Nat × ScanAcc
  | 0, _, state, acc => (state, acc)
  | steps + 1, j, state, acc =>
    let state2 := tab (state &&& 0x00FFFFFF) (u8_tolower (bufGetI buf i))
    let acc2 :=
      if state2 &&& 0xFF000000 ≠ 0 then
        let pids := out (state2 &&& 0x00FFFFFF)
        let (pmq2, n, emitted) := SCPFACProcessPids32 ppl buf i acc.pmq pids
        { matchCount := acc.matchCount + n, pmq := pmq2
          events := acc.events ++ [⟨i, j, state2, emitted⟩] }
      else acc
    SCPFACSearch32Inner tab out ppl buf i steps (j + 1) state2 acc2

/-- The 32-bit branch of `SCPFACSearch`. -/
def SCPFACSearch32 (c : SCPFACCtx) (pmq : PatternMatcherQueue)
    (buf : List Nat) : ScanAcc :=
  let fin := (List.range buf.length).foldl
    (fun (sa : Nat × ScanAcc) i =>
      SCPFACSearch32Inner c.state_table_u32 c.output_table c.pid_pat_list
        buf i (buf.length - i) i sa.1 sa.2)
    (0, ⟨0, pmq, []⟩)
  fin.2

/-- Source `SCPFACSearch`, with the sink state and the event log exposed.  The
narrow branch runs when `state_count < 32767`. -/
def SCPFACSearchRun (c : SCPFACCtx) (pmq : PatternMatcherQueue)
    (buf : List Nat) : ScanAcc :=
  if c.state_count < 32767 then SCPFACSearch16 c pmq buf
  else SCPFACSearch32 c pmq buf

/-- Source `SCPFACSearch` proper: the returned match count. -/
def SCPFACSearch (c : SCPFACCtx) (pmq : PatternMatcherQueue)
    (buf : List Nat) : Nat :=
  (SCPFACSearchRun c pmq buf).matchCount

/-! ## Concrete registrations used by the claim analyses -/

/-- Pattern "Ab" registered case-sensitively under pid 5. -/
def c1Regs : List PatReg := [⟨[0x41, 0x62], 5, false⟩]

/-- The buffer "xAb": the folded pattern "ab" occurs at offset 1, and
the bytes at offsets 1..3 are exactly the original "Ab". -/
def c1Buf : List Nat := [0x78, 0x41, 0x62]

/-- Claim C1 (code evaluation): the pattern set {("Ab", id 5, CS)} and
the buffer "xAb" contain the folded bytes "ab" at offset `k = 1` with
`B[1..3] = "Ab"` case-sensitively, so (P1) requires pid 5 in the sink;
the scan records nothing (and returns 1): the single match event is the
pass starting at `i = 1` terminating at `j = 2`, where the
case-sensitive comparison reads the window ending at the *pass start*
(`buf + i - patlen + 1 = buf[0..2] = "xA"`), not the matched
occurrence, and fails. -/
theorem c1_code_eval :
    (memcpy_tolower c1Buf).drop 1 = memcpy_tolower [0x41, 0x62] ∧
    c1Buf.drop 1 = [0x41, 0x62] ∧
    (SCPFACSearchRun (SCPFACCompile c1Regs) emptyPmq c1Buf).pmq.pattern_id_array = [] ∧
    (SCPFACSearchRun (SCPFACCompile c1Regs) emptyPmq c1Buf).pmq.pattern_id_bitarray 5 = false ∧
    SCPFACSearch (SCPFACCompile c1Regs) emptyPmq c1Buf = 1 := by
  decide

/-- Pattern "bAb" registered case-sensitively under pid 7. -/
def c3Regs : List PatReg := [⟨[0x62, 0x41, 0x62], 7, false⟩]

/-- The buffer "xxbAbab". -/
def c3Buf : List Nat := [0x78, 0x78, 0x62, 0x41, 0x62, 0x61, 0x62]

/-- Claim C3 (code evaluation): scanning "xxbAbab" for {("bAb", 7, CS)}
records pid 7 at the match event with pass start `i = 4` terminating at
`j = 6`, although the window of the pattern's length ending at the
terminating byte is `buf[4..7] = "bab" ≠ "bAb"`: the code compares the
window ending at the pass start (`buf[2..5] = "bAb"`) instead. -/
theorem c3_code_eval :
    (SCPFACSearchRun (SCPFACCompile c3Regs) emptyPmq c3Buf).pmq.pattern_id_array = [7] ∧
    (SCPFACSearchRun (SCPFACCompile c3Regs) emptyPmq c3Buf).events =
      [⟨2, 4, 0x8003, [(0x10007, none)]⟩, ⟨4, 6, 0x8003, [(0x10007, some true)]⟩] ∧
    (c3Buf.drop 4).take 3 ≠ [0x62, 0x41, 0x62] ∧
    (c3Buf.drop 2).take 3 = [0x62, 0x41, 0x62] := by
  decide

/-- Patterns "Ab" (CS, pid 1) and "ab" (NOCASE, pid 2): both fold to "ab" and
share one terminal state, whose output row lists pid 1 (with the verify
bit) before pid 2. -/
def c7Regs : List PatReg := [⟨[0x41, 0x62], 1, false⟩, ⟨[0x61, 0x62], 2, true⟩]

/-- The buffer "xab": the folded occurrence at offset 1 matches the
NOCASE pattern "ab" (pid 2) but not the case-sensitive "Ab" (pid 1). -/
def c7Buf : List Nat := [0x78, 0x61, 0x62]

/-- Claim C7 (code evaluation): at the single match event the terminal
state's output row is `[pid 1 | verify, pid 2]`; verification fails for
pid 1 and the loop `break`s, so pid 2 — a NOCASE pattern that does
occur — is never processed and the sink stays empty.  The claim
requires pid 2 to still be recorded. -/
theorem c7_code_eval :
    (SCPFACCompile c7Regs).output_table 2 = [0x10001, 2] ∧
    (SCPFACSearchRun (SCPFACCompile c7Regs) emptyPmq c7Buf).events =
      [⟨1, 2, 0x8002, [(0x10001, none)]⟩] ∧
    (SCPFACSearchRun (SCPFACCompile c7Regs) emptyPmq c7Buf).pmq.pattern_id_array = [] ∧
    (SCPFACSearchRun (SCPFACCompile c7Regs) emptyPmq c7Buf).pmq.pattern_id_bitarray 2 = false := by
  decide

/-- Pattern "abab" registered NOCASE under pid 1. -/
def c10Regs : List PatReg := [⟨[0x61, 0x62, 0x61, 0x62], 1, true⟩]

/-- The buffer "xaba": it does *not* contain "abab". -/
def c10Buf : List Nat := [0x78, 0x61, 0x62, 0x61]

/-- Claim C10 (code evaluation): the folded pattern "abab" is not an
infix of the folded buffer "xaba", yet pid 1 (no verify bit) is
recorded: the pass at `i = 1` runs off the buffer end in a non-zero
state, which carries over into the pass at `i = 2`, whose first step
re-reads `buf[2]` and completes the pattern out of bytes at positions
1,2,3,2. -/
theorem c10_code_eval :
    ¬ (memcpy_tolower [0x61, 0x62, 0x61, 0x62] <:+: memcpy_tolower c10Buf) ∧
    (SCPFACSearchRun (SCPFACCompile c10Regs) emptyPmq c10Buf).pmq.pattern_id_array = [1] ∧
    SCPFACSearch (SCPFACCompile c10Regs) emptyPmq c10Buf = 1 := by
  decide

/-! ## Claim C2: FAIL cells in the delta table -/

/-- Walk the goto table from a state along a byte string (`none` when a
FAIL transition is hit).  Used to state which state a trie label
reaches. -/
def gotoWalk (g : Nat → Nat → Int) : Nat → List Nat → Option Nat
  | state, [] => some state
  | state, c :: rest =>
    if g state c ≠ SC_PFAC_FAIL then gotoWalk g (g state c).toNat rest else none

/-- Written from the claim: the state reached by the longest proper
suffix of `label` that is also a trie prefix (the classical failure
state of the state labelled `label`; the empty suffix reaches the
root). -/
def failureOfLabel (g : Nat → Nat → Int) (label : List Nat) : Nat :=
  ((label.tails.drop 1).findSome? (fun suffix => gotoWalk g 0 suffix)).getD 0

/-- Patterns "ab" (pid 0) and "ba" (pid 1), both case-sensitive.  States:
0 root, 1 = "a", 2 = "b", 3 = "ab", 4 = "ba". -/
def c2Regs : List PatReg := [⟨[0x61, 0x62], 0, false⟩, ⟨[0x62, 0x61], 1, false⟩]

/-- Claim C2 is false on the code: state 3 is labelled "ab", its goto
entry for byte 'a' is FAIL, and its failure state (longest proper
suffix "b" that is a trie prefix) is state 2; the claim requires
`delta[3]['a'] = delta[2]['a']`, but the compiled cells are 0 and
0x8004 — the failure-elimination assignment is commented out in
`SCPFACCreateDeltaTable` and FAIL cells keep their zero fill. -/
theorem c2_claim_counterexample :
    gotoWalk (SCPFACCompile c2Regs).goto_table 0 [0x61, 0x62] = some 3 ∧
    (SCPFACCompile c2Regs).goto_table 3 0x61 = SC_PFAC_FAIL ∧
    failureOfLabel (SCPFACCompile c2Regs).goto_table [0x61, 0x62] = 2 ∧
    (SCPFACCompile c2Regs).state_table_u16 3 0x61 = 0 ∧
    (SCPFACCompile c2Regs).state_table_u16 2 0x61 = 0x8004 ∧
    (SCPFACCompile c2Regs).state_table_u16 3 0x61 ≠
      (SCPFACCompile c2Regs).state_table_u16
        (failureOfLabel (SCPFACCompile c2Regs).goto_table [0x61, 0x62]) 0x61 := by
  decide

/-- Left folds preserve any invariant their steps preserve. -/
theorem foldlPreserve {α β : Type _} (P : α → Prop) (f : α → β → α) :
    ∀ (l : List β) (a : α), P a → (∀ x y, y ∈ l → P x → P (f x y)) →
      P (l.foldl f a) := by
  intro l
  induction l with
  | nil => exact fun a h _ => h
  | cons b bs ih =>
    intro a h hstep
    exact ih _ (hstep a b (by simp) h)
      (fun x y hy hx => hstep x y (List.mem_cons_of_mem b hy) hx)

/-- One BFS round writes only cells whose goto entry is non-FAIL. -/
theorem SCPFACDeltaRound_fail_zero (g : Nat → Nat → Int) (r : Nat)
    (qd : List Nat × (Nat → Nat → Nat))
    (h : ∀ s c, g s c = SC_PFAC_FAIL → qd.2 s c = 0) :
    ∀ s c, g s c = SC_PFAC_FAIL → (SCPFACDeltaRound g r qd).2 s c = 0 := by
  unfold SCPFACDeltaRound
  refine foldlPreserve (fun qd => ∀ s c, g s c = SC_PFAC_FAIL → qd.2 s c = 0)
    _ _ qd h ?_
  intro x y _ hx s c hsc
  dsimp only
  split
  · rename_i hne
    dsimp only
    by_cases hcell : s = r ∧ c = y
    · exact absurd (hcell.1 ▸ hcell.2 ▸ hsc) hne
    · rw [if_neg hcell]
      exact hx s c hsc
  · exact hx s c hsc

/-- The BFS loop writes only cells whose goto entry is non-FAIL. -/
theorem SCPFACDeltaLoop_fail_zero (g : Nat → Nat → Int) :
    ∀ (fuel : Nat) (q : List Nat) (d : Nat → Nat → Nat),
      (∀ s c, g s c = SC_PFAC_FAIL → d s c = 0) →
      ∀ s c, g s c = SC_PFAC_FAIL → SCPFACDeltaLoop g fuel q d s c = 0 := by
  intro fuel
  induction fuel with
  | zero =>
    intro q d h s c hsc
    simpa [SCPFACDeltaLoop] using h s c hsc
  | succ n ih =>
    intro q d h s c hsc
    cases q with
    | nil => simpa [SCPFACDeltaLoop] using h s c hsc
    | cons r q2 =>
      simp only [SCPFACDeltaLoop]
      exact ih _ _ (SCPFACDeltaRound_fail_zero g r (q2, d) h) s c hsc

/-- A FAIL goto cell leaves its delta cell at the zero fill. -/
theorem SCPFACCreateDeltaTable_fail_zero (g : Nat → Nat → Int) (s c : Nat)
    (h : g s c = SC_PFAC_FAIL) :
    SCPFACCreateDeltaTable g s c = 0 := by
  unfold SCPFACCreateDeltaTable
  refine SCPFACDeltaLoop_fail_zero g _ _ _ ?_ s c h
  intro s2 c2 h2
  dsimp only
  split
  · rename_i hcond
    rw [show g 0 c2 = SC_PFAC_FAIL from hcond.1 ▸ h2]
    rfl
  · rfl

/-- The presence pass only ORs the presence bit, so a zero cell still
decodes to state 0. -/
theorem SCPFACClub_mask_zero (mask bit state_count : Nat)
    (out : Nat → List Nat) (d : Nat → Nat → Nat) (s c : Nat)
    (hd : d s c = 0) (hmb : bit &&& mask = 0) :
    SCPFACClubOutputStatePresenceWithDeltaTable mask bit state_count out d s c
      &&& mask = 0 := by
  unfold SCPFACClubOutputStatePresenceWithDeltaTable
  split
  · rw [hd, Nat.zero_or]
    exact hmb
  · rw [hd]
    exact Nat.zero_and mask

/-- Claim C2 (amended): for every compiled context and every cell whose
goto entry is FAIL, the delta cell decodes to state 0 (scan restart) in
both the 16-bit and the 32-bit table — not to
`delta[failure[r]][b]`. -/
theorem c2_fail_cells_decode_to_root (regs : List PatReg) (r b : Nat)
    (hfail : (SCPFACCompile regs).goto_table r b = SC_PFAC_FAIL) :
    (SCPFACCompile regs).state_table_u16 r b &&& 0x7FFF = 0 ∧
    (SCPFACCompile regs).state_table_u32 r b &&& 0x00FFFFFF = 0 := by
  unfold SCPFACCompile SCPFACPreparePatterns at hfail ⊢
  by_cases hp : (registerAll regs).patterns = []
  · rw [if_pos hp]
    exact ⟨Nat.zero_and _, Nat.zero_and _⟩
  · rw [if_neg hp] at hfail ⊢
    have hd : SCPFACDeltaOf (registerAll regs) r b = 0 :=
      SCPFACCreateDeltaTable_fail_zero _ r b hfail
    exact ⟨SCPFACClub_mask_zero _ _ _ _ _ r b hd (by decide),
           SCPFACClub_mask_zero _ _ _ _ _ r b hd (by decide)⟩

/-- Witness for `c2_fail_cells_decode_to_root` at the concrete context
of `c2Regs`, state 3, byte 'a'. -/
theorem c2_fail_cells_decode_to_root_witness :
    (SCPFACCompile c2Regs).goto_table 3 0x61 = SC_PFAC_FAIL ∧
    ((SCPFACCompile c2Regs).state_table_u16 3 0x61 &&& 0x7FFF = 0 ∧
     (SCPFACCompile c2Regs).state_table_u32 3 0x61 &&& 0x00FFFFFF = 0) :=
  ⟨by decide, c2_fail_cells_decode_to_root c2Regs 3 0x61 (by decide)⟩

/-! ## Claim C4: what the returned count counts -/

/-- Patterns "ab" (pid 1) and "AB" (pid 2), both NOCASE: both fold to "ab" and
share one terminal state whose output row is `[2, 1]` (parray is in
bucket order: hash("AB") = 196 < hash("ab") = 292). -/
def c4Regs : List PatReg := [⟨[0x61, 0x62], 1, true⟩, ⟨[0x41, 0x42], 2, true⟩]

/-- The buffer "ab". -/
def c4Buf : List Nat := [0x61, 0x62]

/-- Claim C4 is false on the code: scanning "ab" emits two pids (2 and
1, both recorded in the sink) at the single match event, so the number
of pid-emission events is 2, but the function returns 1 — `matches++`
runs once per match-state visit in the 16-bit branch (the per-pid
increments are commented out). -/
theorem c4_claim_counterexample :
    SCPFACSearch (SCPFACCompile c4Regs) emptyPmq c4Buf = 1 ∧
    ((SCPFACSearchRun (SCPFACCompile c4Regs) emptyPmq c4Buf).events.map
      (fun e => e.emitted.length)).sum = 2 ∧
    (SCPFACSearchRun (SCPFACCompile c4Regs) emptyPmq c4Buf).pmq.pattern_id_array
      = [2, 1] := by
  decide

/-- Within one pass, `matches` grows together with the event log. -/
theorem SCPFACSearch16Inner_matches_events (tab : Nat → Nat → Nat)
    (out : Nat → List Nat) (ppl : Nat → SCPFACPatternList)
    (buf : List Nat) (i : Nat) :
    ∀ (rem : List Nat) (j st : Nat) (acc : ScanAcc),
      acc.matchCount = acc.events.length →
      (SCPFACSearch16Inner tab out ppl buf i rem j st acc).2.matchCount =
      (SCPFACSearch16Inner tab out ppl buf i rem j st acc).2.events.length := by
  intro rem
  induction rem with
  | nil =>
    intro j st acc h
    simpa [SCPFACSearch16Inner] using h
  | cons b rest ih =>
    intro j st acc h
    simp only [SCPFACSearch16Inner]
    split
    · exact h
    · apply ih
      split
      · simp [h]
      · exact h

/-- Claim C4 (amended): in the 16-bit branch the returned value equals
the number of match events — visits of a delta cell with the presence
bit set — regardless of how many pids each visited state emits or how
many are recorded. -/
theorem c4_return_counts_match_events (regs : List PatReg)
    (pmq : PatternMatcherQueue) (buf : List Nat)
    (hsc : (SCPFACCompile regs).state_count < 32767) :
    SCPFACSearch (SCPFACCompile regs) pmq buf =
    (SCPFACSearchRun (SCPFACCompile regs) pmq buf).events.length := by
  unfold SCPFACSearch SCPFACSearchRun
  rw [if_pos hsc]
  unfold SCPFACSearch16
  exact foldlPreserve (fun sa : Nat × ScanAcc => sa.2.matchCount = sa.2.events.length)
    _ (List.range buf.length) (0, ⟨0, pmq, []⟩) rfl
    (fun sa i2 _ hx => SCPFACSearch16Inner_matches_events _ _ _ buf i2
      (buf.drop i2) i2 sa.1 sa.2 hx)

/-- Witness for `c4_return_counts_match_events` at the concrete
`c4Regs` context over the buffer "ab". -/
theorem c4_return_counts_match_events_witness :
    (SCPFACCompile c4Regs).state_count < 32767 ∧
    SCPFACSearch (SCPFACCompile c4Regs) emptyPmq c4Buf =
    (SCPFACSearchRun (SCPFACCompile c4Regs) emptyPmq c4Buf).events.length :=
  ⟨by decide, c4_return_counts_match_events c4Regs emptyPmq c4Buf (by decide)⟩

/-! ## Claim C5: duplicate-id registration -/

/-- Patterns "ab" then "cd", both under pid 7.  Their byte hashes differ
(292 vs 298), so the duplicate lookup — which only scans the bucket of
the *new* bytes — misses the existing id. -/
def c5Regs : List PatReg := [⟨[0x61, 0x62], 7, false⟩, ⟨[0x63, 0x64], 7, false⟩]

/-- The same set with only the first registration. -/
def c5RegsFirst : List PatReg := [⟨[0x61, 0x62], 7, false⟩]

/-- Claim C5 is false on the code: registering ("cd", id 7) after
("ab", id 7) is *not* a no-op — both patterns are stored (the dedup
hash is keyed by the bytes, and "cd" lands in a different bucket than
"ab", so the id comparison never happens) — and the compiled context
differs from the single-registration one (5 states and 2 patterns
versus 3 states and 1 pattern; both trie branches emit pid 7). -/
theorem c5_claim_counterexample :
    (SCPFACAddPattern (registerAll c5RegsFirst) [0x63, 0x64] 7 false).2 ≠
      registerAll c5RegsFirst ∧
    (registerAll c5Regs).patterns.length = 2 ∧
    (SCPFACCompile c5Regs).state_count = 5 ∧
    (SCPFACCompile c5RegsFirst).state_count = 3 ∧
    (SCPFACCompile c5Regs).state_count ≠ (SCPFACCompile c5RegsFirst).state_count := by
  decide

/-- Claim C5 (amended): a registration whose id is already present *in
the bucket selected by the new bytes' hash* — in particular any
re-registration of the identical pattern bytes with the same id — is a
no-op, and the prepared context is identical to the one built without
the duplicate. -/
theorem c5_duplicate_in_bucket_noop (st : MpmStore) (pat : List Nat)
    (pid : Nat) (nocase : Bool)
    (h : ∃ t ∈ st.patterns,
      SCPFACInitHash t = SCPFACInitHashRaw pat pat.length ∧ t.id = pid) :
    SCPFACAddPattern st pat pid nocase = (0, st) ∧
    SCPFACPreparePatterns (SCPFACAddPattern st pat pid nocase).2 =
      SCPFACPreparePatterns st := by
  have hfind : (SCPFACInitHashLookup st pat pat.length pid).isSome := by
    unfold SCPFACInitHashLookup
    rw [List.find?_isSome]
    obtain ⟨t, ht, h1, h2⟩ := h
    exact ⟨t, ht, by simp [h1, h2]⟩
  have hmain : SCPFACAddPattern st pat pid nocase = (0, st) := by
    unfold SCPFACAddPattern
    split
    · rfl
    · cases hfl : SCPFACInitHashLookup st pat pat.length pid with
      | none => rw [hfl] at hfind; simp at hfind
      | some t => rfl
  exact ⟨hmain, by rw [hmain]⟩

/-- Witness for `c5_duplicate_in_bucket_noop`: re-registering the
identical ("ab", id 7) is a no-op. -/
theorem c5_duplicate_in_bucket_noop_witness :
    (∃ t ∈ (registerAll c5RegsFirst).patterns,
      SCPFACInitHash t = SCPFACInitHashRaw [0x61, 0x62] 2 ∧ t.id = 7) ∧
    SCPFACAddPattern (registerAll c5RegsFirst) [0x61, 0x62] 7 false =
      (0, registerAll c5RegsFirst) :=
  ⟨by decide,
   (c5_duplicate_in_bucket_noop (registerAll c5RegsFirst) [0x61, 0x62] 7 false
     (by decide)).1⟩

/-! ## Claim C9: zero-length registration -/

/-- Claim C9: `SCPFACAddPattern` with pattern length 0 logs a warning
and returns 0 (success) before touching the context: the store, the
pattern count, `minlen`, `maxlen` and `max_pat_id` are all unchanged
(the returned store is the input store, every field included). -/
theorem c9_zero_length_noop (st : MpmStore) (pid : Nat) (nocase : Bool) :
    SCPFACAddPattern st [] pid nocase = (0, st) ∧
    ((SCPFACAddPattern st [] pid nocase).2.patterns.length = st.patterns.length ∧
     (SCPFACAddPattern st [] pid nocase).2.minlen = st.minlen ∧
     (SCPFACAddPattern st [] pid nocase).2.maxlen = st.maxlen ∧
     (SCPFACAddPattern st [] pid nocase).2.max_pat_id = st.max_pat_id) :=
  ⟨rfl, rfl, rfl, rfl, rfl⟩

/-! ## Claim C8: the sink invariant -/

/-- Sink well-formedness: the pid list is duplicate-free and the seen
bitset holds exactly the listed pids. -/
def PmqWF (pmq : PatternMatcherQueue) : Prop :=
  pmq.pattern_id_array.Nodup ∧
  ∀ pid, pmq.pattern_id_bitarray pid = true ↔ pid ∈ pmq.pattern_id_array

theorem pmqRecord_wf (pmq : PatternMatcherQueue) (pid : Nat)
    (h : PmqWF pmq) : PmqWF (pmqRecord pmq pid).1 := by
  unfold pmqRecord
  split
  · exact h
  · rename_i hbit
    have hnotmem : pid ∉ pmq.pattern_id_array := fun hm =>
      hbit ((h.2 pid).2 hm)
    refine ⟨?_, ?_⟩
    · simp only [List.nodup_append, List.nodup_singleton, true_and]
      exact ⟨h.1, by simpa [List.disjoint_singleton] using hnotmem⟩
    · intro q
      by_cases hq : q = pid
      · subst hq
        simp
      · simp only [hq, if_false, List.mem_append, List.mem_singleton, hq, or_false]
        exact h.2 q

theorem SCPFACProcessPids_wf (ppl : Nat → SCPFACPatternList) (buf : List Nat)
    (i : Nat) :
    ∀ (pids : List Nat) (pmq : PatternMatcherQueue), PmqWF pmq →
      PmqWF (SCPFACProcessPids ppl buf i pmq pids).1 := by
  intro pids
  induction pids with
  | nil => exact fun pmq h => h
  | cons pid rest ih =>
    intro pmq h
    simp only [SCPFACProcessPids]
    split
    · split
      · exact h
      · rcases hrec : pmqRecord pmq (pid &&& 0x0000FFFF) with ⟨pmq2, newrec⟩
        have h2 : PmqWF pmq2 := by
          have h2a := pmqRecord_wf pmq (pid &&& 0x0000FFFF) h
          rw [hrec] at h2a
          exact h2a
        dsimp only
        exact ih pmq2 h2
    · rcases hrec : pmqRecord pmq pid with ⟨pmq2, newrec⟩
      have h2 : PmqWF pmq2 := by
        have h2a := pmqRecord_wf pmq pid h
        rw [hrec] at h2a
        exact h2a
      dsimp only
      exact ih pmq2 h2

theorem SCPFACProcessPids32_wf (ppl : Nat → SCPFACPatternList) (buf : List Nat)
    (i : Nat) :
    ∀ (pids : List Nat) (pmq : PatternMatcherQueue), PmqWF pmq →
      PmqWF (SCPFACProcessPids32 ppl buf i pmq pids).1 := by
  intro pids
  induction pids with
  | nil => exact fun pmq h => h
  | cons pid rest ih =>
    intro pmq h
    simp only [SCPFACProcessPids32]
    split
    · split
      · exact h
      · rcases hrec : pmqRecord pmq (pid &&& 0x0000FFFF) with ⟨pmq2, newrec⟩
        have h2 : PmqWF pmq2 := by
          have h2a := pmqRecord_wf pmq (pid &&& 0x0000FFFF) h
          rw [hrec] at h2a
          exact h2a
        dsimp only
        exact ih pmq2 h2
    · rcases hrec : pmqRecord pmq pid with ⟨pmq2, newrec⟩
      have h2 : PmqWF pmq2 := by
        have h2a := pmqRecord_wf pmq pid h
        rw [hrec] at h2a
        exact h2a
      dsimp only
      exact ih pmq2 h2

theorem SCPFACSearch16Inner_wf (tab : Nat → Nat → Nat) (out : Nat → List Nat)
    (ppl : Nat → SCPFACPatternList) (buf : List Nat) (i : Nat) :
    ∀ (rem : List Nat) (j st : Nat) (acc : ScanAcc), PmqWF acc.pmq →
      PmqWF (SCPFACSearch16Inner tab out ppl buf i rem j st acc).2.pmq := by
  intro rem
  induction rem with
  | nil => exact fun j st acc h => h
  | cons b rest ih =>
    intro j st acc h
    simp only [SCPFACSearch16Inner]
    split
    · exact h
    · apply ih
      split
      · rcases hrec : SCPFACProcessPids ppl buf i acc.pmq
            (out (tab (st &&& 0x7FFF) (u8_tolower b) &&& 0x7FFF)) with ⟨pmq2, emitted⟩
        have h2 : PmqWF pmq2 := by
          have h2a := SCPFACProcessPids_wf ppl buf i
            (out (tab (st &&& 0x7FFF) (u8_tolower b) &&& 0x7FFF)) acc.pmq h
          rw [hrec] at h2a
          exact h2a
        dsimp only
        exact h2
      · exact h

theorem SCPFACSearch32Inner_wf (tab : Nat → Nat → Nat) (out : Nat → List Nat)
    (ppl : Nat → SCPFACPatternList) (buf : List Nat) (i : Nat) :
    ∀ (steps j st : Nat) (acc : ScanAcc), PmqWF acc.pmq →
      PmqWF (SCPFACSearch32Inner tab out ppl buf i steps j st acc).2.pmq := by
  intro steps
  induction steps with
  | zero => exact fun j st acc h => h
  | succ n ih =>
    intro j st acc h
    simp only [SCPFACSearch32Inner]
    apply ih
    split
    · rcases hrec : SCPFACProcessPids32 ppl buf i acc.pmq
          (out (tab (st &&& 0x00FFFFFF) (u8_tolower (bufGetI buf i)) &&& 0x00FFFFFF))
        with ⟨pmq2, n2, emitted⟩
      have h2 : PmqWF pmq2 := by
        have h2a := SCPFACProcessPids32_wf ppl buf i
          (out (tab (st &&& 0x00FFFFFF) (u8_tolower (bufGetI buf i)) &&& 0x00FFFFFF))
          acc.pmq h
        rw [hrec] at h2a
        exact h2a
      dsimp only
      exact h2
    · exact h

/-- Claim C8: for every compiled context, buffer and well-formed
initial sink (in particular the zeroed sink of `PmqSetup`), the sink
after the scan lists each pid at most once, and its seen bit is set
exactly for the listed pids. -/
theorem c8_sink_unique (regs : List PatReg) (pmq0 : PatternMatcherQueue)
    (buf : List Nat) (h0 : PmqWF pmq0) :
    (SCPFACSearchRun (SCPFACCompile regs) pmq0 buf).pmq.pattern_id_array.Nodup ∧
    ∀ pid, (SCPFACSearchRun (SCPFACCompile regs) pmq0 buf).pmq.pattern_id_bitarray pid
      = true ↔ pid ∈ (SCPFACSearchRun (SCPFACCompile regs) pmq0 buf).pmq.pattern_id_array := by
  have key : PmqWF (SCPFACSearchRun (SCPFACCompile regs) pmq0 buf).pmq := by
    unfold SCPFACSearchRun
    split
    · unfold SCPFACSearch16
      exact foldlPreserve (fun sa : Nat × ScanAcc => PmqWF sa.2.pmq) _
        (List.range buf.length) (0, ⟨0, pmq0, []⟩) h0
        (fun sa i _ hx => SCPFACSearch16Inner_wf _ _ _ buf i
          (buf.drop i) i sa.1 sa.2 hx)
    · unfold SCPFACSearch32
      exact foldlPreserve (fun sa : Nat × ScanAcc => PmqWF sa.2.pmq) _
        (List.range buf.length) (0, ⟨0, pmq0, []⟩) h0
        (fun sa i _ hx => SCPFACSearch32Inner_wf _ _ _ buf i
          (buf.length - i) i sa.1 sa.2 hx)
  exact key

/-- Witness for `c8_sink_unique`: the fresh sink over the `c4Regs`
context and the buffer "ab". -/
theorem c8_sink_unique_witness :
    PmqWF emptyPmq ∧
    ((SCPFACSearchRun (SCPFACCompile c4Regs) emptyPmq c4Buf).pmq.pattern_id_array.Nodup ∧
     ∀ pid, (SCPFACSearchRun (SCPFACCompile c4Regs) emptyPmq c4Buf).pmq.pattern_id_bitarray pid
       = true ↔ pid ∈ (SCPFACSearchRun (SCPFACCompile c4Regs) emptyPmq c4Buf).pmq.pattern_id_array) :=
  ⟨⟨List.nodup_nil, fun pid => by simp [emptyPmq]⟩,
   c8_sink_unique c4Regs emptyPmq c4Buf
     ⟨List.nodup_nil, fun pid => by simp [emptyPmq]⟩⟩

/-! ## Claim C6: validity of the compiled delta cells

The proof tracks one invariant through the construction: every goto
cell is either FAIL or a state below `state_count`.  The delta cells
then stay below `state_count`, and the presence pass only toggles the
presence bit, which the decode mask strips again. -/

/-- A goto cell is FAIL or a valid state id below `sc`. -/
def GotoCellOK (sc : Nat) (v : Int) : Prop :=
  v = SC_PFAC_FAIL ∨ (0 ≤ v ∧ v.toNat < sc)

theorem GotoCellOK.mono {sc sc' : Nat} {v : Int} (h : GotoCellOK sc v)
    (hle : sc ≤ sc') : GotoCellOK sc' v := by
  rcases h with h | ⟨h1, h2⟩
  · exact Or.inl h
  · exact Or.inr ⟨h1, Nat.lt_of_lt_of_le h2 hle⟩

/-- The invariant carried through goto-table construction. -/
def ACBuildWF (b : ACBuild) : Prop :=
  1 ≤ b.state_count ∧ ∀ s c, GotoCellOK b.state_count (b.goto_table s c)

theorem ACBuildWF_after_root : ACBuildWF (SCPFACInitNewState initACBuild).2 :=
  ⟨Nat.le_refl 1, fun _ _ => Or.inl rfl⟩

theorem ACBuildWF_newState {b : ACBuild} (h : ACBuildWF b) :
    ACBuildWF (SCPFACInitNewState b).2 :=
  ⟨Nat.le_succ_of_le h.1, fun s c => (h.2 s c).mono (Nat.le_succ _)⟩

theorem ACBuildWF_setGoto {b : ACBuild} (h : ACBuildWF b) (s c t : Nat)
    (ht : t < b.state_count) : ACBuildWF (setGoto b s c (Int.ofNat t)) := by
  refine ⟨h.1, fun s2 c2 => ?_⟩
  unfold setGoto
  dsimp only
  split
  · exact Or.inr ⟨Int.ofNat_nonneg t, by simpa using ht⟩
  · exact h.2 s2 c2

theorem ACBuildWF_enterAdd :
    ∀ (rest : List Nat) (b : ACBuild) (state : Nat), ACBuildWF b →
      ACBuildWF (SCPFACEnterAdd b state rest).1 := by
  intro rest
  induction rest with
  | nil => exact fun b state h => h
  | cons c cs ih =>
    intro b state h
    simp only [SCPFACEnterAdd, SCPFACInitNewState]
    exact ih _ _ (ACBuildWF_setGoto (ACBuildWF_newState h) state c b.state_count
      (Nat.lt_succ_self _))

theorem ACBuildWF_setOutput {b : ACBuild} (h : ACBuildWF b) (state pid : Nat) :
    ACBuildWF (SCPFACSetOutputState state pid b) := by
  unfold SCPFACSetOutputState
  split
  · exact h
  · exact ⟨h.1, h.2⟩

theorem ACBuildWF_enter {b : ACBuild} (h : ACBuildWF b) (pattern : List Nat)
    (pid : Nat) : ACBuildWF (SCPFACEnter pattern pid b) := by
  unfold SCPFACEnter
  rcases hw : SCPFACEnterWalk b 0 pattern with ⟨state, rest⟩
  dsimp only
  rcases ha : SCPFACEnterAdd b state rest with ⟨b2, terminal⟩
  have h2 := ACBuildWF_enterAdd rest b state h
  rw [ha] at h2
  exact ACBuildWF_setOutput h2 terminal pid

theorem ACBuildWF_level1Gap {b : ACBuild} (h : ACBuildWF b)
    (parray : List SCPFACPattern) :
    ACBuildWF (SCPFACDetermineLevel1Gap parray b) := by
  unfold SCPFACDetermineLevel1Gap
  refine foldlPreserve ACBuildWF _ (List.range 256) b h ?_
  intro x u _ hx
  dsimp only
  split
  · simp only [SCPFACInitNewState]
    exact ACBuildWF_setGoto (ACBuildWF_newState hx) 0 u x.state_count
      (Nat.lt_succ_self _)
  · exact hx

theorem ACBuildWF_createGoto {b : ACBuild} (h : ACBuildWF b)
    (parray : List SCPFACPattern) :
    ACBuildWF (SCPFACCreateGotoTable parray b) := by
  unfold SCPFACCreateGotoTable
  have h1 : ACBuildWF (parray.foldl (fun b p => SCPFACEnter p.ci p.id b) b) :=
    foldlPreserve ACBuildWF _ parray b h
      (fun x p _ hx => ACBuildWF_enter hx p.ci p.id)
  refine ⟨h1.1, fun s c => ?_⟩
  dsimp only
  split
  · exact Or.inr ⟨le_refl 0, h1.1⟩
  · exact h1.2 s c

/-- The goto scratch state of every prepared store is well-formed. -/
theorem ACBuildWF_buildOf (st : MpmStore) : ACBuildWF (SCPFACBuildOf st) :=
  ACBuildWF_createGoto (ACBuildWF_level1Gap ACBuildWF_after_root _) _

/-- One BFS round keeps every delta cell below `sc`. -/
theorem SCPFACDeltaRound_bound (g : Nat → Nat → Int) (sc : Nat)
    (hg : ∀ s c, GotoCellOK sc (g s c)) (r : Nat)
    (qd : List Nat × (Nat → Nat → Nat))
    (h : ∀ s c, qd.2 s c < sc) :
    ∀ s c, (SCPFACDeltaRound g r qd).2 s c < sc := by
  unfold SCPFACDeltaRound
  refine foldlPreserve (fun qd : List Nat × (Nat → Nat → Nat) => ∀ s c, qd.2 s c < sc)
    _ _ qd h ?_
  intro x y _ hx s c
  dsimp only
  split
  · rename_i hne
    dsimp only
    split
    · rcases hg r y with hfail | ⟨_, hlt⟩
      · exact absurd hfail hne
      · exact hlt
    · exact hx s c
  · exact hx s c

theorem SCPFACDeltaLoop_bound (g : Nat → Nat → Int) (sc : Nat)
    (hg : ∀ s c, GotoCellOK sc (g s c)) :
    ∀ (fuel : Nat) (q : List Nat) (d : Nat → Nat → Nat),
      (∀ s c, d s c < sc) →
      ∀ s c, SCPFACDeltaLoop g fuel q d s c < sc := by
  intro fuel
  induction fuel with
  | zero =>
    intro q d h s c
    simpa [SCPFACDeltaLoop] using h s c
  | succ n ih =>
    intro q d h s c
    cases q with
    | nil => simpa [SCPFACDeltaLoop] using h s c
    | cons r q2 =>
      simp only [SCPFACDeltaLoop]
      exact ih _ _ (SCPFACDeltaRound_bound g sc hg r (q2, d) h) s c

/-- Every delta cell holds a state below `state_count`. -/
theorem SCPFACCreateDeltaTable_bound (g : Nat → Nat → Int) (sc : Nat)
    (hsc : 1 ≤ sc) (hg : ∀ s c, GotoCellOK sc (g s c)) :
    ∀ s c, SCPFACCreateDeltaTable g s c < sc := by
  unfold SCPFACCreateDeltaTable
  refine SCPFACDeltaLoop_bound g sc hg _ _ _ ?_
  intro s c
  dsimp only
  split
  · rcases hg 0 c with hfail | ⟨_, hlt⟩
    · rw [hfail]
      exact hsc
    · exact hlt
  · exact hsc

/-! Bit-level facts about the `mask = 2^k - 1` / `bit = 2^k` cell
packing. -/

theorem land_mask_eq_of_lt (x k : Nat) (h : x < 2 ^ k) :
    x &&& (2 ^ k - 1) = x := by
  apply Nat.eq_of_testBit_eq
  intro i
  rw [Nat.testBit_land, Nat.testBit_two_pow_sub_one]
  by_cases hik : i < k
  · simp [hik]
  · have hx : x.testBit i = false :=
      Nat.testBit_eq_false_of_lt
        (Nat.lt_of_lt_of_le h (Nat.pow_le_pow_right (by norm_num) (Nat.le_of_not_lt hik)))
    simp [hik, hx]

theorem lor_bit_land_mask (x k : Nat) (h : x < 2 ^ k) :
    (x ||| 2 ^ k) &&& (2 ^ k - 1) = x := by
  apply Nat.eq_of_testBit_eq
  intro i
  rw [Nat.testBit_land, Nat.testBit_lor, Nat.testBit_two_pow_sub_one,
    Nat.testBit_two_pow]
  by_cases hik : i < k
  · have : ¬k = i := by omega
    simp [hik, this]
  · have hx : x.testBit i = false :=
      Nat.testBit_eq_false_of_lt
        (Nat.lt_of_lt_of_le h (Nat.pow_le_pow_right (by norm_num) (Nat.le_of_not_lt hik)))
    simp [hik, hx]

theorem land_bit_eq_zero (x k : Nat) (h : x < 2 ^ k) : x &&& 2 ^ k = 0 := by
  rw [Nat.and_two_pow, Nat.testBit_eq_false_of_lt h]
  simp

theorem lor_bit_land_bit_ne_zero (x k : Nat) : (x ||| 2 ^ k) &&& 2 ^ k ≠ 0 := by
  rw [Nat.and_two_pow]
  have : (x ||| 2 ^ k).testBit k = true := by
    rw [Nat.testBit_lor, Nat.testBit_two_pow]
    simp
  rw [this]
  have hpos : 0 < 2 ^ k := Nat.pos_pow_of_pos k (by norm_num)
  simp only [Bool.toNat_true, Nat.one_mul]
  omega

/-- The presence pass leaves the decoded state unchanged. -/
theorem SCPFACClub_decode (k sc : Nat) (out : Nat → List Nat)
    (d : Nat → Nat → Nat) (s c : Nat) (hd : d s c < 2 ^ k) :
    SCPFACClubOutputStatePresenceWithDeltaTable (2 ^ k - 1) (2 ^ k) sc out d s c
      &&& (2 ^ k - 1) = d s c := by
  unfold SCPFACClubOutputStatePresenceWithDeltaTable
  split
  · exact lor_bit_land_mask _ k hd
  · exact land_mask_eq_of_lt _ k hd

/-- After the presence pass, for an in-range cell the presence bit is
set exactly when the destination's output row is non-empty. -/
theorem SCPFACClub_bit_iff (k sc : Nat) (out : Nat → List Nat)
    (d : Nat → Nat → Nat) (s c : Nat) (hd : d s c < 2 ^ k)
    (hs : s < sc) (hc : c < 256) :
    (SCPFACClubOutputStatePresenceWithDeltaTable (2 ^ k - 1) (2 ^ k) sc out d s c
      &&& 2 ^ k ≠ 0) ↔ out (d s c) ≠ [] := by
  unfold SCPFACClubOutputStatePresenceWithDeltaTable
  rw [land_mask_eq_of_lt (d s c) k hd]
  split
  · rename_i hcond
    exact iff_of_true (lor_bit_land_bit_ne_zero (d s c) k) hcond.2.2
  · rename_i hcond
    have hout : ¬ out (d s c) ≠ [] := fun hq => hcond ⟨hs, hc, hq⟩
    have hz : d s c &&& 2 ^ k = 0 := land_bit_eq_zero _ k hd
    exact iff_of_false (by rw [hz]; exact fun hq => hq rfl) hout

/-- Stamping verify bits maps the output rows elementwise, so
row non-emptiness is unchanged. -/
theorem insertCS_ne_nil_iff (ppl : Nat → SCPFACPatternList) (sc : Nat)
    (out : Nat → List Nat) (state : Nat) :
    SCPFACInsertCaseSensitiveEntriesForPatterns ppl sc out state ≠ [] ↔
      out state ≠ [] := by
  unfold SCPFACInsertCaseSensitiveEntriesForPatterns
  split
  · simp
  · exact Iff.rfl

/-- The states reachable from the root through a packed transition
table under decode mask `mask`, one scanner step (a byte below 256) at
a time. -/
inductive ReachTab (tab : Nat → Nat → Nat) (mask : Nat) : Nat → Prop
  | root : ReachTab tab mask 0
  | step (s b : Nat) : ReachTab tab mask s → b < 256 →
      ReachTab tab mask (tab s b &&& mask)

theorem ReachTab_lt (tab : Nat → Nat → Nat) (mask sc : Nat) (h0 : 0 < sc)
    (hstep : ∀ s b, b < 256 → tab s b &&& mask < sc) :
    ∀ s, ReachTab tab mask s → s < sc := by
  intro s hs
  induction hs with
  | root => exact h0
  | step s2 b2 hr hb ih => exact hstep s2 b2 hb

/-- Width-generic core of claim C6, for the table packed with mask
`2^k - 1` and presence bit `2^k`: whenever `state_count` fits the mask
(`state_count ≤ 2^k`), every cell of a reachable row decodes to a state
below `state_count`, and its presence bit is set iff the
(verify-stamped) output row of the decoded state is non-empty. -/
theorem SCPFACDelta_cells_valid_generic (st : MpmStore) (k : Nat)
    (ppl : Nat → SCPFACPatternList)
    (hsc : (SCPFACBuildOf st).state_count ≤ 2 ^ k) (s b : Nat)
    (hs : ReachTab
      (SCPFACClubOutputStatePresenceWithDeltaTable (2 ^ k - 1) (2 ^ k)
        (SCPFACBuildOf st).state_count (SCPFACBuildOf st).output_table
        (SCPFACDeltaOf st)) (2 ^ k - 1) s)
    (hb : b < 256) :
    SCPFACClubOutputStatePresenceWithDeltaTable (2 ^ k - 1) (2 ^ k)
      (SCPFACBuildOf st).state_count (SCPFACBuildOf st).output_table
      (SCPFACDeltaOf st) s b &&& (2 ^ k - 1) < (SCPFACBuildOf st).state_count ∧
    (SCPFACClubOutputStatePresenceWithDeltaTable (2 ^ k - 1) (2 ^ k)
        (SCPFACBuildOf st).state_count (SCPFACBuildOf st).output_table
        (SCPFACDeltaOf st) s b &&& 2 ^ k ≠ 0 ↔
      SCPFACInsertCaseSensitiveEntriesForPatterns ppl
        (SCPFACBuildOf st).state_count (SCPFACBuildOf st).output_table
        (SCPFACClubOutputStatePresenceWithDeltaTable (2 ^ k - 1) (2 ^ k)
          (SCPFACBuildOf st).state_count (SCPFACBuildOf st).output_table
          (SCPFACDeltaOf st) s b &&& (2 ^ k - 1)) ≠ []) := by
  have hwf := ACBuildWF_buildOf st
  have hdbound : ∀ s2 c2, SCPFACDeltaOf st s2 c2 < (SCPFACBuildOf st).state_count :=
    SCPFACCreateDeltaTable_bound _ _ hwf.1 hwf.2
  have hdk : ∀ s2 c2, SCPFACDeltaOf st s2 c2 < 2 ^ k :=
    fun s2 c2 => Nat.lt_of_lt_of_le (hdbound s2 c2) hsc
  have hdecode : ∀ s2 b2,
      SCPFACClubOutputStatePresenceWithDeltaTable (2 ^ k - 1) (2 ^ k)
        (SCPFACBuildOf st).state_count (SCPFACBuildOf st).output_table
        (SCPFACDeltaOf st) s2 b2 &&& (2 ^ k - 1) = SCPFACDeltaOf st s2 b2 :=
    fun s2 b2 => SCPFACClub_decode k _ _ _ s2 b2 (hdk s2 b2)
  have hreach : s < (SCPFACBuildOf st).state_count := by
    refine ReachTab_lt _ _ _ hwf.1 (fun s2 b2 hb2 => ?_) s hs
    rw [hdecode s2 b2]
    exact hdbound s2 b2
  refine ⟨?_, ?_⟩
  · rw [hdecode s b]
    exact hdbound s b
  · rw [hdecode s b, insertCS_ne_nil_iff]
    exact SCPFACClub_bit_iff k _ _ _ s b (hdk s b) hreach hb

/-- Claim C6: for every compiled context, every state reachable from
the root and every byte, the delta cell decodes to a state below
`state_count` and its output-presence bit is set iff the output row of
the decoded state is non-empty — in the narrow form (mask 0x7FFF, bit
0x8000) whenever `state_count < 32767`, the regime in which the source
builds and the scanner consults the 16-bit table, and in the wide form
(mask 0x00FFFFFF, bit 0x01000000) whenever `state_count` fits the
24-bit decode (`state_count ≤ 0x01000000`; every context the source can
finish compiling satisfies this, since `SCPFACEnqueue` aborts the
process once 65536 states are in flight). -/
theorem c6_delta_cells_valid (regs : List PatReg)
    (hne : (registerAll regs).patterns ≠ []) :
    ((SCPFACCompile regs).state_count < 32767 →
      ∀ s b : Nat, ReachTab (SCPFACCompile regs).state_table_u16 0x7FFF s →
        b < 256 →
        (SCPFACCompile regs).state_table_u16 s b &&& 0x7FFF <
          (SCPFACCompile regs).state_count ∧
        ((SCPFACCompile regs).state_table_u16 s b &&& 0x8000 ≠ 0 ↔
          (SCPFACCompile regs).output_table
            ((SCPFACCompile regs).state_table_u16 s b &&& 0x7FFF) ≠ [])) ∧
    ((SCPFACCompile regs).state_count ≤ 0x01000000 →
      ∀ s b : Nat, ReachTab (SCPFACCompile regs).state_table_u32 0x00FFFFFF s →
        b < 256 →
        (SCPFACCompile regs).state_table_u32 s b &&& 0x00FFFFFF <
          (SCPFACCompile regs).state_count ∧
        ((SCPFACCompile regs).state_table_u32 s b &&& 0x01000000 ≠ 0 ↔
          (SCPFACCompile regs).output_table
            ((SCPFACCompile regs).state_table_u32 s b &&& 0x00FFFFFF) ≠ [])) := by
  have e1 : (0x7FFF : Nat) = 2 ^ 15 - 1 := by norm_num
  have e2 : (0x8000 : Nat) = 2 ^ 15 := by norm_num
  have e3 : (0x00FFFFFF : Nat) = 2 ^ 24 - 1 := by norm_num
  have e4 : (0x01000000 : Nat) = 2 ^ 24 := by norm_num
  unfold SCPFACCompile SCPFACPreparePatterns
  rw [if_neg hne]
  dsimp only
  rw [e1, e2, e3, e4]
  constructor
  · intro hsc s b hs hb
    exact SCPFACDelta_cells_valid_generic (registerAll regs) 15 _
      (Nat.le_of_lt (Nat.lt_of_lt_of_le hsc (by norm_num))) s b hs hb
  · intro hsc s b hs hb
    exact SCPFACDelta_cells_valid_generic (registerAll regs) 24 _ hsc s b hs hb

/-- Witness for `c6_delta_cells_valid` at the `c2Regs` context, in both
widths, at the root state and byte 'a': the cell decodes to state
1 < 5 with no presence bit, and state 1's output row is empty. -/
theorem c6_delta_cells_valid_witness :
    ((registerAll c2Regs).patterns ≠ [] ∧
     (SCPFACCompile c2Regs).state_count < 32767 ∧
     (SCPFACCompile c2Regs).state_count ≤ 0x01000000 ∧ (0x61 : Nat) < 256) ∧
    ((SCPFACCompile c2Regs).state_table_u16 0 0x61 &&& 0x7FFF <
       (SCPFACCompile c2Regs).state_count ∧
     ((SCPFACCompile c2Regs).state_table_u16 0 0x61 &&& 0x8000 ≠ 0 ↔
       (SCPFACCompile c2Regs).output_table
         ((SCPFACCompile c2Regs).state_table_u16 0 0x61 &&& 0x7FFF) ≠ [])) ∧
    ((SCPFACCompile c2Regs).state_table_u32 0 0x61 &&& 0x00FFFFFF <
       (SCPFACCompile c2Regs).state_count ∧
     ((SCPFACCompile c2Regs).state_table_u32 0 0x61 &&& 0x01000000 ≠ 0 ↔
       (SCPFACCompile c2Regs).output_table
         ((SCPFACCompile c2Regs).state_table_u32 0 0x61 &&& 0x00FFFFFF) ≠ [])) :=
  ⟨⟨by decide, by decide, by decide, by decide⟩,
   (c6_delta_cells_valid c2Regs (by decide)).1 (by decide) 0 0x61
     ReachTab.root (by decide),
   (c6_delta_cells_valid c2Regs (by decide)).2 (by decide) 0 0x61
     ReachTab.root (by decide)⟩

/-! ## Replaying the source's own unit tests

`SCPFACTest02` passes on the embedding; `SCPFACTest12` does not return
what the source test expects, evidence that the scan-loop slips break
the source's own test suite. -/

/-- Source unit test `SCPFACTest02`: pattern "abce" over
"abcdefghjiklmnopqrstuvwxyz" returns 0, as the test expects. -/
theorem sourceTest02_count :
    SCPFACSearch
      (SCPFACCompile [⟨[0x61, 0x62, 0x63, 0x65], 0, false⟩]) emptyPmq
      [0x61, 0x62, 0x63, 0x64, 0x65, 0x66, 0x67, 0x68, 0x6A, 0x69, 0x6B, 0x6C,
       0x6D, 0x6E, 0x6F, 0x70, 0x71, 0x72, 0x73, 0x74, 0x75, 0x76, 0x77, 0x78,
       0x79, 0x7A] = 0 := by
  decide

/-- Source unit test `SCPFACTest12` *fails* on the code: the test
expects 2 for patterns "wxyz" and "vwxyz" over the alphabet, but the
scan returns 1.  The pass at offset 21 matches "vwxyz" and runs to the
buffer end in a non-zero state; the pass at offset 22 inherits that
state, reads `delta[state_of_vwxyz]['w'] = 0` and dies, so the "wxyz"
occurrence at offset 22 is never walked — the same carried-state slip
exhibited in `c10_code_eval`. -/
theorem sourceTest12_count :
    SCPFACSearch
      (SCPFACCompile [⟨[0x77, 0x78, 0x79, 0x7A], 0, false⟩,
                      ⟨[0x76, 0x77, 0x78, 0x79, 0x7A], 1, false⟩]) emptyPmq
      [0x61, 0x62, 0x63, 0x64, 0x65, 0x66, 0x67, 0x68, 0x69, 0x6A, 0x6B, 0x6C,
       0x6D, 0x6E, 0x6F, 0x70, 0x71, 0x72, 0x73, 0x74, 0x75, 0x76, 0x77, 0x78,
       0x79, 0x7A] = 1 := by
  decide
